import Mathlib

/-!
Shallow embedding of the circle lifecycle and membership service
(`src/circles/circles.service.ts`), the webhook event handlers
(`webhook.service.ts`), and the request DTOs of the mixercloud-cicd
repository.  Firestore timestamps are modelled as natural numbers
(milliseconds), Firestore documents as Lean structures, a members /
hand-raise subcollection as an association list keyed by user id, and
every fallible service method as an `Except`-valued function.
-/

namespace Mixercloud

/-- Circle status: `'scheduled' | 'live' | 'ended'`. -/
inductive Status where
  | scheduled
  | live
  | ended
deriving DecidableEq

/-- Member role: `'host' | 'speaker' | 'listener'`. -/
inductive Role where
  | host
  | speaker
  | listener
deriving DecidableEq

/-- Member status: `'active' | 'left' | 'disconnected'`; the field is
optional on the entity (`status?: ... | null`), so it is used as
`Option MemberStatus` below. -/
inductive MemberStatus where
  | active
  | left
  | disconnected
deriving DecidableEq

/-- `endReason ∈ {host_ended, host_disconnected, timeout}` (optional). -/
inductive EndReason where
  | host_ended
  | host_disconnected
  | timeout
deriving DecidableEq

/-- Circle privacy: `'public' | 'private' | 'secret'`. -/
inductive Privacy where
  | public
  | private_
  | secret
deriving DecidableEq

/-- LiveKit track type, audio vs video (`TrackType.AUDIO`). -/
inductive TrackType where
  | audio
  | video
deriving DecidableEq

/-- The `Circle` entity (`entities/circle.entity.ts`). Timestamps are `Nat`
milliseconds; optional / nullable fields are `Option`. -/
structure Circle where
  id : String
  title : String
  description : Option String
  category : String
  coverUrl : Option String
  createdAt : Nat
  hostUid : String
  maxSpeakers : Nat
  privacy : Privacy
  startAt : Nat
  status : Status
  participantCount : Int
  endedAt : Option Nat
  endReason : Option EndReason
  hostDisconnectedAt : Option Nat
  isReplay : Bool
  totalSpeakTime : Option Nat
  handRaiseCount : Option Nat
  roleChangeCount : Option Nat
deriving DecidableEq

/-- The `CircleMember` entity. A Firestore document may omit a field
entirely, which is the same observable state as `null`; both are `none`. -/
structure CircleMember where
  role : Role
  isMuted : Bool
  joinedAt : Nat
  lastSpokeAt : Option Nat
  status : Option MemberStatus
  leftAt : Option Nat
  disconnectedAt : Option Nat
  rejoinCount : Option Nat
  lastRejoinAt : Option Nat
  totalSpeakTime : Option Nat
  isHandRaised : Option Bool
  handRaiseCount : Option Nat
  roleChangeCount : Option Nat
  lastRoleChangeAt : Option Nat
  isMutedByHost : Option Bool
  muteReason : Option String
  kickCount : Option Nat
  lastKickAt : Option Nat
  kickReason : Option String
deriving DecidableEq

/-- The `HandRaise` entity. -/
structure HandRaise where
  raisedAt : Nat
deriving DecidableEq

/-- A minted LiveKit capability token (`LivekitService.mintToken`): the
identity, room and role baked into the JWT grant. -/
structure MintedToken where
  identity : String
  room : String
  role : Role
deriving DecidableEq

/-- `LivekitService.mintToken(userId, circleId, role, fullName)` modelled as
the pure token record (credential / JWT plumbing is external). -/
def mintToken (userId : String) (room : String) (role : Role) : MintedToken :=
  ⟨userId, room, role⟩

/-- The members (or hand raises) subcollection: an association list keyed by
user id, standing for `circles/{id}/members/{userId}` documents. -/
abbrev Members := List (String × CircleMember)

/-- Firestore `doc(uid).get()` on the subcollection. -/
def lookupMember : Members → String → Option CircleMember
  | [], _ => none
  | p :: rest, uid => if p.1 = uid then some p.2 else lookupMember rest uid

/-- Firestore `doc(uid).set(m)`: replace the document if present, create it
otherwise. -/
def setMember : Members → String → CircleMember → Members
  | [], uid, m => [(uid, m)]
  | p :: rest, uid, m =>
    if p.1 = uid then (p.1, m) :: rest else p :: setMember rest uid m

/-- Firestore `doc(uid).update(fields)` on an existing document: apply the
partial update `f` to every document keyed `uid` (document ids are unique
in the store, so this is the single-document update). -/
def updateMember : Members → String → (CircleMember → CircleMember) → Members
  | [], _, _ => []
  | p :: rest, uid, f =>
    (if p.1 = uid then (p.1, f p.2) else p) :: updateMember rest uid f

/-- Service errors, one constructor per distinct `throw` site the claims
touch; `invalidTransition` carries both the current and requested status,
as the thrown message does. -/
inductive CircleError where
  | notAuthenticated
  | circleNotFound
  | onlyHostCanUpdateStatus
  | invalidTransition (fromStatus : Status) (toStatus : Status)
  | onlyHostCanDelete
  | onlyScheduledCanBeDeleted
  | dailyLimitReached
  | cannotJoinStatus (status : Status)
  | hostCannotLeave
  | memberNotFound
  | targetMemberNotFound
  | forbiddenPromote
  | userNotFound
deriving DecidableEq

/-- Whether an `Except` result is a success. -/
def isOk : Except CircleError α → Bool
  | .ok _ => true
  | .error _ => false

/-- The `validStatusTransitions` table of `CirclesService`:
`{scheduled: ['live','ended'], live: ['ended'], ended: []}`. -/
def validStatusTransitions : Status → List Status
  | .scheduled => [.live, .ended]
  | .live => [.ended]
  | .ended => []

/-- `isValidStatusTransition(currentStatus, newStatus)`:
`validStatusTransitions[currentStatus].includes(newStatus)`. -/
def isValidStatusTransition (currentStatus newStatus : Status) : Bool :=
  decide (newStatus ∈ validStatusTransitions currentStatus)

/-- `updateCircleStatus(id, newStatus, userId)`, given the circle document
the id resolves to (`circleSnap.data()`) and the current time `now`.
Checks, in source order: authentication, host, transition validity; stamps
`endedAt` when the new status is `ended`. -/
def updateCircleStatus (circle : Circle) (newStatus : Status) (userId : String)
    (now : Nat) : Except CircleError Circle :=
  if userId = "" then .error .notAuthenticated
  else if circle.hostUid ≠ userId then .error .onlyHostCanUpdateStatus
  else if ¬ isValidStatusTransition circle.status newStatus then
    .error (.invalidTransition circle.status newStatus)
  else
    let c := { circle with status := newStatus }
    .ok (if newStatus = .ended then { c with endedAt := some now } else c)

/-- `CreateCircleDto`: optional fields are `Option`; `startAt` is an optional
timestamp. -/
structure CreateCircleDto where
  title : String
  description : Option String
  category : String
  privacy : Privacy
  coverUrl : Option String
  startAt : Option Nat
  maxSpeakers : Option Nat
  isReplay : Option Bool
deriving DecidableEq

/-- The daily-quota query of `createCircle`: the number of stored circles
with `hostUid == userId` and `createdAt >= startOfDay` (local midnight). -/
def dailyCreateCount (circles : List Circle) (userId : String)
    (startOfDay : Nat) : Nat :=
  (circles.filter (fun c => c.hostUid == userId && decide (startOfDay ≤ c.createdAt))).length

/-- `createCircle(dto, userId)`: rejects an unauthenticated caller, rejects
when the requester already created 5 or more circles since local midnight,
otherwise builds the circle document (status `scheduled` iff a future
`startAt` was supplied), the host member document, and a host token.
`existingCircles` is the stored collection the quota query runs over. -/
def createCircle (existingCircles : List Circle) (dto : CreateCircleDto)
    (userId : String) (circleId : String) (now : Nat) (startOfDay : Nat) :
    Except CircleError (Circle × CircleMember × MintedToken) :=
  if userId = "" then .error .notAuthenticated
  else if 5 ≤ dailyCreateCount existingCircles userId startOfDay then
    .error .dailyLimitReached
  else
    let startTime := dto.startAt.getD now
    let initialStatus := match dto.startAt with
      | some t => if now < t then Status.scheduled else Status.live
      | none => Status.live
    let circleData : Circle :=
      { id := circleId, title := dto.title, description := dto.description,
        category := dto.category, coverUrl := dto.coverUrl, createdAt := now,
        hostUid := userId, maxSpeakers := dto.maxSpeakers.getD 8,
        privacy := dto.privacy, startAt := startTime, status := initialStatus,
        participantCount := 1, endedAt := none, endReason := none,
        hostDisconnectedAt := none, isReplay := dto.isReplay.getD false,
        totalSpeakTime := some 0, handRaiseCount := some 0,
        roleChangeCount := some 0 }
    let memberData : CircleMember :=
      { role := .host, isMuted := false, joinedAt := now, lastSpokeAt := none,
        status := some .active, leftAt := none, disconnectedAt := none,
        rejoinCount := some 0, lastRejoinAt := none, totalSpeakTime := some 0,
        isHandRaised := none, handRaiseCount := some 0,
        roleChangeCount := some 0, lastRoleChangeAt := none,
        isMutedByHost := none, muteReason := none, kickCount := some 0,
        lastKickAt := none, kickReason := none }
    .ok (circleData, memberData, mintToken userId circleId .host)

/-- `deleteCircle(id, userId)`, given the resolved circle and its member and
hand-raise subcollections. Checks, in source order: authentication, host,
`status === 'scheduled'`; on success the circle document is deleted and
both subcollections batch-deleted. -/
def deleteCircle (circle : Circle) (members : Members)
    (handRaises : List (String × HandRaise)) (userId : String) :
    Except CircleError (Option Circle × Members × List (String × HandRaise)) :=
  if userId = "" then .error .notAuthenticated
  else if circle.hostUid ≠ userId then .error .onlyHostCanDelete
  else if circle.status ≠ .scheduled then .error .onlyScheduledCanBeDeleted
  else .ok (none, [], [])

/-- `handleHostDisconnection(circleId, hostId)` state effect before the
timeout is armed: member status `disconnected` with `disconnectedAt`, and
`hostDisconnectedAt` on the circle (a Firestore `update` on a missing
member document fails). -/
def handleHostDisconnection (circle : Circle) (members : Members)
    (hostId : String) (now : Nat) : Except CircleError (Circle × Members) :=
  match lookupMember members hostId with
  | none => .error .memberNotFound
  | some _ =>
    .ok ({ circle with hostDisconnectedAt := some now },
         updateMember members hostId (fun m =>
           { m with status := some .disconnected, disconnectedAt := some now }))

/-- The deferred 5-minute check armed by `handleHostDisconnection`: at fire
time it re-reads the host's member document; if the status is still
`disconnected` it applies `endCircleDueToHostDisconnection` (status `ended`,
`endedAt`, `endReason = host_disconnected`), otherwise it is a no-op.
`members` is the member store as it stands at fire time. -/
def hostDisconnectionTimeoutCheck (circle : Circle) (members : Members)
    (hostId : String) (fireTime : Nat) : Circle :=
  match lookupMember members hostId with
  | some member =>
    if member.status = some .disconnected then
      { circle with status := .ended, endedAt := some fireTime,
                    endReason := some .host_disconnected }
    else circle
  | none => circle

/-- `JoinCircleDto`: the `role` field is optional and its validator only
admits `'listener'` (`@IsEnum(['listener'])`). -/
structure JoinCircleDto where
  role : Option Role
deriving DecidableEq

/-- The states of `JoinCircleDto.role` that pass the DTO validation
boundary. -/
def JoinCircleDto.valid (d : JoinCircleDto) : Prop :=
  d.role = none ∨ d.role = some Role.listener

/-- `joinDto?.role || 'listener'`. -/
def requestedRoleOf (joinDto : Option JoinCircleDto) : Role :=
  (joinDto.bind JoinCircleDto.role).getD Role.listener

/-- The `{ webrtcToken, role }` result of `joinCircle` / `promoteMember`. -/
structure JoinOutcome where
  webrtcToken : MintedToken
  role : Role
deriving DecidableEq

/-- `joinCircle(id, userId, joinDto)`, returning the outcome together with
the updated circle and member store. Follows the source branch for branch:
joinability check, host-joining-own-scheduled-circle special case (idempotent
when a member record exists), rejoin reactivation for an existing record
with status `'left'`, idempotent token mint for any other existing record,
and creation of a new member with the requested role otherwise. -/
def joinCircle (circle : Circle) (members : Members) (userId : String)
    (joinDto : Option JoinCircleDto) (now : Nat) :
    Except CircleError (JoinOutcome × Circle × Members) :=
  if userId = "" then .error .notAuthenticated
  else if ¬ (circle.status = .scheduled ∨ circle.status = .live) then
    .error (.cannotJoinStatus circle.status)
  else
    let requestedRole := requestedRoleOf joinDto
    let existingMember := lookupMember members userId
    if circle.hostUid = userId ∧ circle.status = .scheduled then
      match existingMember with
      | some _ => .ok (⟨mintToken userId circle.id .host, .host⟩, circle, members)
      | none =>
        let memberData : CircleMember :=
          { role := .host, isMuted := false, joinedAt := now,
            lastSpokeAt := none, status := some .active, leftAt := none,
            disconnectedAt := none, rejoinCount := none, lastRejoinAt := none,
            totalSpeakTime := some 0, isHandRaised := none,
            handRaiseCount := some 0, roleChangeCount := some 0,
            lastRoleChangeAt := none, isMutedByHost := none,
            muteReason := none, kickCount := some 0, lastKickAt := none,
            kickReason := none }
        .ok (⟨mintToken userId circle.id .host, .host⟩,
             { circle with participantCount := circle.participantCount + 1 },
             setMember members userId memberData)
    else
      match existingMember with
      | some em =>
        if em.status = some .left then
          let currentRejoinCount := em.rejoinCount.getD 0
          .ok (⟨mintToken userId circle.id em.role, em.role⟩,
               { circle with participantCount := circle.participantCount + 1 },
               updateMember members userId (fun m =>
                 { m with status := some .active, leftAt := none,
                          rejoinCount := some (currentRejoinCount + 1),
                          lastRejoinAt := some now, joinedAt := now }))
        else
          .ok (⟨mintToken userId circle.id em.role, em.role⟩, circle, members)
      | none =>
        let memberData : CircleMember :=
          { role := requestedRole,
            isMuted := decide (requestedRole = Role.listener),
            joinedAt := now, lastSpokeAt := none, status := some .active,
            leftAt := none, disconnectedAt := none, rejoinCount := some 0,
            lastRejoinAt := none, totalSpeakTime := some 0,
            isHandRaised := some false, handRaiseCount := some 0,
            roleChangeCount := some 0, lastRoleChangeAt := none,
            isMutedByHost := none, muteReason := none, kickCount := some 0,
            lastKickAt := none, kickReason := none }
        .ok (⟨mintToken userId circle.id requestedRole, requestedRole⟩,
             { circle with participantCount := circle.participantCount + 1 },
             setMember members userId memberData)

/-- `PromoteCircleDto`: `newRole` is validated by `@IsIn(['listener',
'speaker', 'host'])`, so `'host'` is admitted at the boundary. -/
structure PromoteCircleDto where
  targetUserId : String
  newRole : Role
deriving DecidableEq

/-- `promoteMember(circleId, requesterId, dto)`: target member must exist,
only the host may promote/demote; sets the role, stamps `lastRoleChangeAt`,
atomically increments `roleChangeCount`, and mints a token for the new
role. -/
def promoteMember (circle : Circle) (members : Members) (requesterId : String)
    (dto : PromoteCircleDto) (now : Nat) :
    Except CircleError (JoinOutcome × Members) :=
  match lookupMember members dto.targetUserId with
  | none => .error .targetMemberNotFound
  | some _ =>
    if circle.hostUid ≠ requesterId then .error .forbiddenPromote
    else
      .ok (⟨mintToken dto.targetUserId circle.id dto.newRole, dto.newRole⟩,
           updateMember members dto.targetUserId (fun m =>
             { m with role := dto.newRole, lastRoleChangeAt := some now,
                      roleChangeCount := some (m.roleChangeCount.getD 0 + 1) }))

/-- `leaveCircle(id, userId)`: the host may not leave; the member document is
soft-deleted (`status := left`, `leftAt` stamped), the user's hand raise
document is deleted, and `participantCount` is decremented. -/
def leaveCircle (circle : Circle) (members : Members)
    (handRaises : List (String × HandRaise)) (userId : String) (now : Nat) :
    Except CircleError (Circle × Members × List (String × HandRaise)) :=
  if userId = "" then .error .notAuthenticated
  else if circle.hostUid = userId then .error .hostCannotLeave
  else
    match lookupMember members userId with
    | none => .error .memberNotFound
    | some _ =>
      .ok ({ circle with participantCount := circle.participantCount - 1 },
           updateMember members userId (fun m =>
             { m with leftAt := some now, status := some .left }),
           handRaises.filter (fun p => !(p.1 == userId)))

/-- `incrementParticipantCount(circleId, userId)` of the webhook service:
increments unless an existing member document has `status === 'active'`
(a missing document, and a missing or null status field, both increment). -/
def incrementParticipantCount (circle : Circle) (members : Members)
    (userId : String) : Circle :=
  match lookupMember members userId with
  | some member =>
    if member.status ≠ some MemberStatus.active then
      { circle with participantCount := circle.participantCount + 1 }
    else circle
  | none => { circle with participantCount := circle.participantCount + 1 }

/-- `handleParticipantJoined(event)`: the participant identity must resolve
to a known user document, then the participant count is adjusted. -/
def handleParticipantJoined (userExists : Bool) (circle : Circle)
    (members : Members) (userId : String) : Except CircleError Circle :=
  if ¬ userExists then .error .userNotFound
  else .ok (incrementParticipantCount circle members userId)

/-- `startSpeakingTime(circleId, userId)`: stamps `lastSpokeAt := now` on the
member document (a Firestore `update` on a missing document fails). -/
def startSpeakingTime (members : Members) (userId : String) (now : Nat) :
    Except CircleError Members :=
  match lookupMember members userId with
  | none => .error .memberNotFound
  | some _ =>
    .ok (updateMember members userId (fun m => { m with lastSpokeAt := some now }))

/-- `endSpeakingTime(circleId, userId)`: if `lastSpokeAt` is set, adds the
elapsed time to `totalSpeakTime` (missing counter read as 0) and clears
`lastSpokeAt`; otherwise just ensures `lastSpokeAt` is null. -/
def endSpeakingTime (members : Members) (userId : String) (now : Nat) :
    Except CircleError Members :=
  match lookupMember members userId with
  | none => .error .memberNotFound
  | some m =>
    match m.lastSpokeAt with
    | some t =>
      .ok (updateMember members userId (fun mm =>
        { mm with totalSpeakTime := some (mm.totalSpeakTime.getD 0 + (now - t)),
                  lastSpokeAt := none }))
    | none =>
      .ok (updateMember members userId (fun mm => { mm with lastSpokeAt := none }))

/-- `handleTrackPublished(event)`: known-user check, then speaking-time start
for audio tracks only; video tracks leave the store untouched. -/
def handleTrackPublished (userExists : Bool) (track : TrackType)
    (members : Members) (userId : String) (now : Nat) :
    Except CircleError Members :=
  if ¬ userExists then .error .userNotFound
  else if track = .audio then startSpeakingTime members userId now
  else .ok members

/-- `handleTrackUnpublished(event)`: known-user check, then speaking-time end
for audio tracks only; video tracks leave the store untouched. -/
def handleTrackUnpublished (userExists : Bool) (track : TrackType)
    (members : Members) (userId : String) (now : Nat) :
    Except CircleError Members :=
  if ¬ userExists then .error .userNotFound
  else if track = .audio then endSpeakingTime members userId now
  else .ok members

/-- Number of member documents of the circle whose role is `host`. -/
def hostCount : Members → Nat
  | [] => 0
  | p :: rest => (if p.2.role = Role.host then 1 else 0) + hostCount rest

/-- The host invariant of the spec's data model: exactly one member record
has `role = host`, and that record is keyed by the circle's `hostUid`. -/
def hostInvariant (hostUid : String) (ms : Members) : Prop :=
  hostCount ms = 1 ∧ ∀ p ∈ ms, p.2.role = Role.host → p.1 = hostUid

/-! ## Sample documents used by witnesses and counterexamples -/

/-- A sample active host member document, as `createCircle` writes it. -/
def hostMember0 : CircleMember :=
  { role := .host, isMuted := false, joinedAt := 0, lastSpokeAt := none,
    status := some .active, leftAt := none, disconnectedAt := none,
    rejoinCount := some 0, lastRejoinAt := none, totalSpeakTime := some 0,
    isHandRaised := none, handRaiseCount := some 0, roleChangeCount := some 0,
    lastRoleChangeAt := none, isMutedByHost := none, muteReason := none,
    kickCount := some 0, lastKickAt := none, kickReason := none }

/-- A sample active listener member document. -/
def listenerMember0 : CircleMember :=
  { hostMember0 with role := .listener, isMuted := true }

/-- A sample scheduled circle hosted by `"h"`. -/
def circle0 : Circle :=
  { id := "c1", title := "t", description := none, category := "music",
    coverUrl := none, createdAt := 0, hostUid := "h", maxSpeakers := 8,
    privacy := .public, startAt := 0, status := .scheduled,
    participantCount := 1, endedAt := none, endReason := none,
    hostDisconnectedAt := none, isReplay := false, totalSpeakTime := some 0,
    handRaiseCount := some 0, roleChangeCount := some 0 }

/-- A sample create-circle request with no scheduled start. -/
def dto0 : CreateCircleDto :=
  { title := "t", description := none, category := "music",
    privacy := .public, coverUrl := none, startAt := none,
    maxSpeakers := none, isReplay := none }

/-! ## Store lemmas -/

theorem lookupMember_updateMember_self (ms : Members) (uid : String)
    (f : CircleMember → CircleMember) :
    lookupMember (updateMember ms uid f) uid = (lookupMember ms uid).map f := by
  induction ms with
  | nil => rfl
  | cons p rest ih =>
    by_cases h : p.1 = uid
    · simp [updateMember, lookupMember, h]
    · simp [updateMember, lookupMember, h, ih]

theorem lookupMember_updateMember_other (ms : Members) (uid u : String)
    (f : CircleMember → CircleMember) (hne : u ≠ uid) :
    lookupMember (updateMember ms uid f) u = lookupMember ms u := by
  induction ms with
  | nil => rfl
  | cons p rest ih =>
    by_cases h : p.1 = uid
    · simp [updateMember, lookupMember, h, hne, Ne.symm hne, ih]
    · by_cases hu : p.1 = u
      · simp [updateMember, lookupMember, h, hu, hne, Ne.symm hne]
      · simp [updateMember, lookupMember, h, hu, ih]

theorem setMember_eq_append (ms : Members) (uid : String) (m : CircleMember)
    (h : lookupMember ms uid = none) : setMember ms uid m = ms ++ [(uid, m)] := by
  induction ms with
  | nil => rfl
  | cons p rest ih =>
    by_cases hk : p.1 = uid
    · rw [lookupMember, if_pos hk] at h
      exact absurd h (by simp)
    · rw [lookupMember, if_neg hk] at h
      simp [setMember, hk, ih h]

theorem lookupMember_setMember_self (ms : Members) (uid : String)
    (m : CircleMember) : lookupMember (setMember ms uid m) uid = some m := by
  induction ms with
  | nil => simp [setMember, lookupMember]
  | cons p rest ih =>
    by_cases hk : p.1 = uid
    · simp [setMember, lookupMember, hk]
    · simp [setMember, lookupMember, hk, ih]

theorem hostCount_append (ms ns : Members) :
    hostCount (ms ++ ns) = hostCount ms + hostCount ns := by
  induction ms with
  | nil => simp [hostCount]
  | cons p rest ih => simp [hostCount, ih]; omega

theorem hostCount_updateMember (uid : String) (ms : Members)
    (f : CircleMember → CircleMember)
    (hf : ∀ p ∈ ms, p.1 = uid →
      ((f p.2).role = Role.host ↔ p.2.role = Role.host)) :
    hostCount (updateMember ms uid f) = hostCount ms := by
  induction ms with
  | nil => rfl
  | cons p rest ih =>
    have hrest : ∀ q ∈ rest, q.1 = uid →
        ((f q.2).role = Role.host ↔ q.2.role = Role.host) :=
      fun q hq => hf q (List.mem_cons_of_mem p hq)
    by_cases h : p.1 = uid
    · have hiff := hf p (List.mem_cons_self p rest) h
      simp only [updateMember, if_pos h, hostCount]
      rw [ih hrest]
      congr 1
      by_cases hr : p.2.role = Role.host
      · rw [if_pos hr, if_pos (hiff.mpr hr)]
      · rw [if_neg hr, if_neg (fun hc => hr (hiff.mp hc))]
    · simp only [updateMember, if_neg h, hostCount]
      rw [ih hrest]

theorem hostKeys_updateMember (hostUid uid : String) (ms : Members)
    (f : CircleMember → CircleMember)
    (hkey : ∀ p ∈ ms, p.2.role = Role.host → p.1 = hostUid)
    (hf : ∀ p ∈ ms, p.1 = uid →
      ((f p.2).role = Role.host ↔ p.2.role = Role.host)) :
    ∀ q ∈ updateMember ms uid f, q.2.role = Role.host → q.1 = hostUid := by
  induction ms with
  | nil => intro q hq; cases hq
  | cons p rest ih =>
    intro q hq hrole
    rw [updateMember] at hq
    rcases List.mem_cons.mp hq with hq1 | hq2
    · by_cases h : p.1 = uid
      · rw [if_pos h] at hq1
        subst hq1
        exact hkey p (List.mem_cons_self p rest)
          ((hf p (List.mem_cons_self p rest) h).mp hrole)
      · rw [if_neg h] at hq1
        subst hq1
        exact hkey _ (List.mem_cons_self _ _) hrole
    · exact ih (fun r hr => hkey r (List.mem_cons_of_mem p hr))
        (fun r hr => hf r (List.mem_cons_of_mem p hr)) q hq2 hrole

theorem hostInvariant_updateMember (hostUid uid : String) (ms : Members)
    (f : CircleMember → CircleMember) (hInv : hostInvariant hostUid ms)
    (hf : ∀ p ∈ ms, p.1 = uid →
      ((f p.2).role = Role.host ↔ p.2.role = Role.host)) :
    hostInvariant hostUid (updateMember ms uid f) :=
  ⟨by rw [hostCount_updateMember uid ms f hf]; exact hInv.1,
   hostKeys_updateMember hostUid uid ms f hInv.2 hf⟩

theorem lookupMember_eq_none (ms : Members) (uid : String)
    (h : lookupMember ms uid = none) : ∀ p ∈ ms, p.1 ≠ uid := by
  induction ms with
  | nil => intro p hp; cases hp
  | cons p rest ih =>
    rw [lookupMember] at h
    by_cases hk : p.1 = uid
    · rw [if_pos hk] at h; cases h
    · rw [if_neg hk] at h
      intro q hq
      rcases List.mem_cons.mp hq with h1 | h2
      · subst h1; exact hk
      · exact ih h q h2

theorem exists_host_of_hostCount_ne_zero (ms : Members)
    (h : hostCount ms ≠ 0) : ∃ p ∈ ms, p.2.role = Role.host := by
  induction ms with
  | nil => exact absurd rfl h
  | cons p rest ih =>
    by_cases hr : p.2.role = Role.host
    · exact ⟨p, List.mem_cons_self p rest, hr⟩
    · rw [hostCount, if_neg hr, Nat.zero_add] at h
      obtain ⟨q, hq, hqr⟩ := ih h
      exact ⟨q, List.mem_cons_of_mem p hq, hqr⟩

theorem requestedRoleOf_valid (joinDto : Option JoinCircleDto)
    (h : ∀ d, joinDto = some d → d.valid) :
    requestedRoleOf joinDto = Role.listener := by
  cases joinDto with
  | none => rfl
  | some d =>
    rcases h d rfl with h1 | h1 <;> simp [requestedRoleOf, h1]

/-! ## Claims -/

/-- C2 evaluation at the failing input (divergence): after
`handleHostDisconnection` marks the host of a live circle as
`disconnected`, a host rejoin via `joinCircle` before the deferred check
fires leaves the member's status `disconnected` — `joinCircle` only
reactivates a member whose status is `left` — so the fire-time check still
transitions the circle to `ended` with `endReason = host_disconnected`,
contrary to the claim that the rejoin sets the status back to `active` and
makes the check a no-op. -/
theorem C2_disconnected_host_rejoin_divergence :
    handleHostDisconnection { circle0 with status := .live }
        [("h", hostMember0)] "h" 50 =
      .ok ({ circle0 with status := .live, hostDisconnectedAt := some 50 },
           [("h", { hostMember0 with status := some .disconnected,
                                     disconnectedAt := some 50 })])
    ∧ joinCircle { circle0 with status := .live, hostDisconnectedAt := some 50 }
        [("h", { hostMember0 with status := some .disconnected,
                                  disconnectedAt := some 50 })] "h" none 60 =
      .ok (⟨mintToken "h" "c1" .host, .host⟩,
           { circle0 with status := .live, hostDisconnectedAt := some 50 },
           [("h", { hostMember0 with status := some .disconnected,
                                     disconnectedAt := some 50 })])
    ∧ (hostDisconnectionTimeoutCheck
        { circle0 with status := .live, hostDisconnectedAt := some 50 }
        [("h", { hostMember0 with status := some .disconnected,
                                  disconnectedAt := some 50 })] "h" 350).status
        = .ended
    ∧ (hostDisconnectionTimeoutCheck
        { circle0 with status := .live, hostDisconnectedAt := some 50 }
        [("h", { hostMember0 with status := some .disconnected,
                                  disconnectedAt := some 50 })] "h" 350).endReason
        = some .host_disconnected := by
  refine ⟨?_, ?_, ?_, ?_⟩ <;> rfl

/-- C1: for every circle currently in status `a` and requested status `b`,
`updateCircleStatus` invoked by the host succeeds iff `b` is in the
transition table `{scheduled → {live, ended}, live → {ended}, ended → {}}`;
an invalid transition is rejected with an error naming both the current and
the requested status, and a successful transition to `ended` stamps
`endedAt`. -/
theorem C1_updateCircleStatus_transition_table (circle : Circle) (b : Status)
    (userId : String) (now : Nat) (hAuth : userId ≠ "")
    (hHost : circle.hostUid = userId) :
    (isOk (updateCircleStatus circle b userId now) = true ↔
        b ∈ validStatusTransitions circle.status)
    ∧ validStatusTransitions .scheduled = [.live, .ended]
    ∧ validStatusTransitions .live = [.ended]
    ∧ validStatusTransitions .ended = []
    ∧ (b ∉ validStatusTransitions circle.status →
        updateCircleStatus circle b userId now =
          .error (.invalidTransition circle.status b))
    ∧ (∀ c, updateCircleStatus circle b userId now = .ok c → b = .ended →
        c.endedAt = some now ∧ c.status = .ended) := by
  have hHost' : ¬ circle.hostUid ≠ userId := fun h => h hHost
  by_cases hb : b ∈ validStatusTransitions circle.status
  · have hvalid : isValidStatusTransition circle.status b = true := by
      simp [isValidStatusTransition, hb]
    refine ⟨?_, rfl, rfl, rfl, fun hc => absurd hb hc, ?_⟩
    · simp [updateCircleStatus, hAuth, hHost', hvalid, isOk, hb]
    · intro c hc hbe
      subst hbe
      simp [updateCircleStatus, hAuth, hHost', hvalid] at hc
      subst hc
      exact ⟨rfl, rfl⟩
  · have hvalid : isValidStatusTransition circle.status b = false := by
      simp [isValidStatusTransition, hb]
    refine ⟨?_, rfl, rfl, rfl, fun _ => ?_, ?_⟩
    · simp [updateCircleStatus, hAuth, hHost', hvalid, isOk, hb]
    · simp [updateCircleStatus, hAuth, hHost', hvalid]
    · intro c hc hbe
      simp [updateCircleStatus, hAuth, hHost', hvalid] at hc

/-- C1 witness: with the sample scheduled circle, the host's transition to
`live` succeeds (evaluated concretely through the theorem). -/
theorem C1_witness :
    isOk (updateCircleStatus circle0 .live "h" 5) = true :=
  (C1_updateCircleStatus_transition_table circle0 .live "h" 5 (by decide)
    rfl).1.mpr (by decide)

/-- C8: `createCircle` fails with the daily-limit (RateLimited) error when
the requester has already created 5 or more circles since local midnight;
a circle created on a previous calendar day does not count toward the
quota; a requester with fewer than 5 creations today succeeds. -/
theorem C8_createCircle_rate_limit (circles : List Circle)
    (dto : CreateCircleDto) (userId circleId : String) (now startOfDay : Nat)
    (hAuth : userId ≠ "") :
    (5 ≤ dailyCreateCount circles userId startOfDay →
        createCircle circles dto userId circleId now startOfDay =
          .error .dailyLimitReached)
    ∧ (dailyCreateCount circles userId startOfDay < 5 →
        isOk (createCircle circles dto userId circleId now startOfDay) = true)
    ∧ (∀ c : Circle, c.createdAt < startOfDay →
        dailyCreateCount (c :: circles) userId startOfDay =
          dailyCreateCount circles userId startOfDay) := by
  refine ⟨fun h5 => ?_, fun hlt => ?_, fun c hc => ?_⟩
  · simp [createCircle, hAuth, h5]
  · have h5' : ¬ 5 ≤ dailyCreateCount circles userId startOfDay :=
      Nat.not_le.mpr hlt
    simp [createCircle, hAuth, h5', isOk]
  · have hlt' : ¬ startOfDay ≤ c.createdAt := Nat.not_le.mpr hc
    simp [dailyCreateCount, List.filter_cons, hlt']

/-- C8 witness: with an empty collection the quota is 0, so creating
succeeds; a previous-day circle does not raise the count. -/
theorem C8_witness :
    isOk (createCircle [] dto0 "h" "c1" 10 5) = true :=
  (C8_createCircle_rate_limit [] dto0 "h" "c1" 10 5 (by decide)).2.1 (by decide)

/-- C9: `deleteCircle` invoked by the host fails with the invalid-state
error whenever the circle's status is not `scheduled`, and on success
removes the circle record, every member record, and every hand-raise
record. -/
theorem C9_deleteCircle_scheduled_only (circle : Circle) (members : Members)
    (handRaises : List (String × HandRaise)) (userId : String)
    (hAuth : userId ≠ "") (hHost : circle.hostUid = userId) :
    (circle.status ≠ .scheduled →
        deleteCircle circle members handRaises userId =
          .error .onlyScheduledCanBeDeleted)
    ∧ (circle.status = .scheduled →
        deleteCircle circle members handRaises userId = .ok (none, [], [])) := by
  have hHost' : ¬ circle.hostUid ≠ userId := fun h => h hHost
  refine ⟨fun hs => ?_, fun hs => ?_⟩
  · simp [deleteCircle, hAuth, hHost', hs]
  · simp [deleteCircle, hAuth, hHost', hs]

/-- C9 witness: deleting the sample scheduled circle empties both
subcollections; deleting it once live fails with the invalid-state error. -/
theorem C9_witness :
    deleteCircle circle0 [("h", hostMember0)] [("u", ⟨3⟩)] "h" =
      .ok (none, [], [])
    ∧ deleteCircle { circle0 with status := .live }
        [("h", hostMember0)] [("u", ⟨3⟩)] "h" =
      .error .onlyScheduledCanBeDeleted :=
  ⟨(C9_deleteCircle_scheduled_only circle0 [("h", hostMember0)] [("u", ⟨3⟩)]
      "h" (by decide) rfl).2 rfl,
   (C9_deleteCircle_scheduled_only { circle0 with status := .live }
      [("h", hostMember0)] [("u", ⟨3⟩)] "h" (by decide) rfl).1 (by decide)⟩

/-- C7: for a member of the store, an audio `track_published` stamps
`lastSpokeAt`; a subsequent audio `track_unpublished` adds the elapsed time
since `lastSpokeAt` to `totalSpeakTime` and clears `lastSpokeAt`; a
publish/unpublish pair separated by 2000 ms increases `totalSpeakTime` by
at least 2000 ms; video tracks change neither field. -/
theorem C7_speaking_time (ms : Members) (uid : String) (m : CircleMember)
    (t1 t2 : Nat) (hm : lookupMember ms uid = some m) (hle : t1 ≤ t2) :
    ∃ ms1, handleTrackPublished true .audio ms uid t1 = .ok ms1
    ∧ lookupMember ms1 uid = some { m with lastSpokeAt := some t1 }
    ∧ (∃ ms2, handleTrackUnpublished true .audio ms1 uid t2 = .ok ms2
        ∧ lookupMember ms2 uid = some
            { m with lastSpokeAt := none,
                     totalSpeakTime :=
                       some (m.totalSpeakTime.getD 0 + (t2 - t1)) }
        ∧ (t2 = t1 + 2000 →
            m.totalSpeakTime.getD 0 + 2000 ≤ m.totalSpeakTime.getD 0 + (t2 - t1)))
    ∧ handleTrackPublished true .video ms uid t1 = .ok ms
    ∧ handleTrackUnpublished true .video ms uid t2 = .ok ms := by
  have hpub : handleTrackPublished true .audio ms uid t1 =
      .ok (updateMember ms uid (fun mm => { mm with lastSpokeAt := some t1 })) := by
    simp [handleTrackPublished, startSpeakingTime, hm]
  have hm1 : lookupMember
      (updateMember ms uid (fun mm => { mm with lastSpokeAt := some t1 })) uid
      = some { m with lastSpokeAt := some t1 } := by
    rw [lookupMember_updateMember_self, hm]; rfl
  have hunpub : handleTrackUnpublished true .audio
      (updateMember ms uid (fun mm => { mm with lastSpokeAt := some t1 }))
      uid t2 =
      .ok (updateMember
        (updateMember ms uid (fun mm => { mm with lastSpokeAt := some t1 }))
        uid (fun mm =>
          { mm with
            totalSpeakTime := some (mm.totalSpeakTime.getD 0 + (t2 - t1)),
            lastSpokeAt := none })) := by
    simp [handleTrackUnpublished, endSpeakingTime, hm1]
  have hm2 : lookupMember (updateMember
      (updateMember ms uid (fun mm => { mm with lastSpokeAt := some t1 }))
      uid (fun mm =>
        { mm with
          totalSpeakTime := some (mm.totalSpeakTime.getD 0 + (t2 - t1)),
          lastSpokeAt := none })) uid =
      some { m with lastSpokeAt := none,
                    totalSpeakTime :=
                      some (m.totalSpeakTime.getD 0 + (t2 - t1)) } := by
    rw [lookupMember_updateMember_self, hm1]; rfl
  refine ⟨_, hpub, hm1, ⟨_, hunpub, hm2, fun h2 => ?_⟩, ?_, ?_⟩
  · subst h2; simp
  · simp [handleTrackPublished]
  · simp [handleTrackUnpublished]

/-- C7 witness: a listener publishes audio at 100 ms and unpublishes at
2100 ms; `lastSpokeAt` is stamped then cleared and `totalSpeakTime` grows
by 2000 ms. -/
theorem C7_witness :
    ∃ ms1, handleTrackPublished true .audio [("u", listenerMember0)] "u" 100
        = .ok ms1
    ∧ lookupMember ms1 "u" =
        some { listenerMember0 with lastSpokeAt := some 100 }
    ∧ ∃ ms2, handleTrackUnpublished true .audio ms1 "u" 2100 = .ok ms2
    ∧ lookupMember ms2 "u" = some
        { listenerMember0 with lastSpokeAt := none,
                               totalSpeakTime := some 2000 } := by
  obtain ⟨ms1, h1, h2, ⟨ms2, h3, h4, _⟩, _⟩ :=
    C7_speaking_time [("u", listenerMember0)] "u" listenerMember0 100 2100
      rfl (by decide)
  exact ⟨ms1, h1, h2, ms2, h3, h4⟩

/-- C6 counterexample: an existing member whose `status` field is
absent/null is claimed to count as active (hence no increment), but
`incrementParticipantCount` checks `member?.status !== 'active'`, which is
true for a null status, so `handleParticipantJoined` does increment: the
sample circle's count goes from 1 to 2. -/
theorem C6_counterexample :
    circle0.participantCount = 1
    ∧ (lookupMember [("u", { listenerMember0 with status := none })] "u").map
        CircleMember.status = some none
    ∧ handleParticipantJoined true circle0
        [("u", { listenerMember0 with status := none })] "u" =
      .ok { circle0 with participantCount := 2 } := by
  refine ⟨rfl, rfl, ?_⟩
  simp [handleParticipantJoined, incrementParticipantCount, lookupMember,
    circle0]

/-- C6 amended: for a `participant_joined` event for a known user,
`participantCount` is incremented iff the member record is absent or its
`status` field is not literally `'active'`; an absent/null status does not
count as active in this handler, so an existing member with absent/null
status does get the count incremented. -/
theorem C6_participant_joined_increment (circle : Circle) (ms : Members)
    (uid : String) :
    ∃ c, handleParticipantJoined true circle ms uid = .ok c
    ∧ (c.participantCount = circle.participantCount + 1 ↔
        (lookupMember ms uid = none ∨
          ∀ m, lookupMember ms uid = some m → m.status ≠ some .active))
    ∧ (∀ m, lookupMember ms uid = some m → m.status = none →
        c.participantCount = circle.participantCount + 1)
    ∧ (c.participantCount = circle.participantCount + 1 ∨ c = circle) := by
  cases hmem : lookupMember ms uid with
  | none =>
    refine ⟨{ circle with participantCount := circle.participantCount + 1 },
      ?_, ?_, ?_, ?_⟩
    · simp [handleParticipantJoined, incrementParticipantCount, hmem]
    · simp
    · intro m hm; exact Option.noConfusion hm
    · left; rfl
  | some member =>
    by_cases hact : member.status = some MemberStatus.active
    · refine ⟨circle, ?_, ?_, ?_, Or.inr rfl⟩
      · simp [handleParticipantJoined, incrementParticipantCount, hmem, hact]
      · constructor
        · intro h; omega
        · rintro (h | h)
          · exact Option.noConfusion h
          · exact absurd hact (h member rfl)
      · intro m hm hnone
        cases hm
        rw [hnone] at hact
        exact Option.noConfusion hact
    · refine ⟨{ circle with participantCount := circle.participantCount + 1 },
        ?_, ?_, fun m hm _ => rfl, Or.inl rfl⟩
      · simp [handleParticipantJoined, incrementParticipantCount, hmem, hact]
      · constructor
        · intro _
          exact Or.inr (fun m hm => by cases hm; exact hact)
        · intro _; rfl

/-- C5: a host joining their own scheduled circle with no member record
creates a host member (role `host`, status `active`) and increments
`participantCount` by exactly 1; a second `joinCircle` call by the host on
the resulting state returns a freshly minted host token without creating a
record or incrementing again. -/
theorem C5_host_join_idempotent (circle : Circle) (ms : Members)
    (userId : String) (joinDto joinDto2 : Option JoinCircleDto) (now now2 : Nat)
    (hAuth : userId ≠ "") (hHost : circle.hostUid = userId)
    (hSched : circle.status = .scheduled)
    (hNone : lookupMember ms userId = none) :
    ∃ out c1 ms1,
      joinCircle circle ms userId joinDto now = .ok (out, c1, ms1)
      ∧ out.role = .host
      ∧ out.webrtcToken = mintToken userId circle.id .host
      ∧ c1.participantCount = circle.participantCount + 1
      ∧ (∃ hm, lookupMember ms1 userId = some hm ∧ hm.role = .host
          ∧ hm.status = some .active)
      ∧ joinCircle c1 ms1 userId joinDto2 now2 =
          .ok (⟨mintToken userId circle.id .host, .host⟩, c1, ms1) := by
  have hcond : circle.hostUid = userId ∧ circle.status = Status.scheduled :=
    ⟨hHost, hSched⟩
  have hjoin : joinCircle circle ms userId joinDto now =
      .ok (⟨mintToken userId circle.id .host, .host⟩,
           { circle with participantCount := circle.participantCount + 1 },
           setMember ms userId
             { role := .host, isMuted := false, joinedAt := now,
               lastSpokeAt := none, status := some .active, leftAt := none,
               disconnectedAt := none, rejoinCount := none,
               lastRejoinAt := none, totalSpeakTime := some 0,
               isHandRaised := none, handRaiseCount := some 0,
               roleChangeCount := some 0, lastRoleChangeAt := none,
               isMutedByHost := none, muteReason := none, kickCount := some 0,
               lastKickAt := none, kickReason := none }) := by
    simp [joinCircle, hAuth, hSched, hNone, hcond]
  have hlook := lookupMember_setMember_self ms userId
    { role := .host, isMuted := false, joinedAt := now,
      lastSpokeAt := none, status := some .active, leftAt := none,
      disconnectedAt := none, rejoinCount := none,
      lastRejoinAt := none, totalSpeakTime := some 0,
      isHandRaised := none, handRaiseCount := some 0,
      roleChangeCount := some 0, lastRoleChangeAt := none,
      isMutedByHost := none, muteReason := none, kickCount := some 0,
      lastKickAt := none, kickReason := none }
  refine ⟨_, _, _, hjoin, rfl, rfl, rfl, ⟨_, hlook, rfl, rfl⟩, ?_⟩
  simp [joinCircle, hAuth, hSched, hcond, hlook]

/-- C5 witness: the sample host joins the empty scheduled circle twice; the
first call creates the member and bumps the count, the second only mints. -/
theorem C5_witness :
    ∃ out c1 ms1,
      joinCircle circle0 [] "h" none 7 = .ok (out, c1, ms1)
      ∧ out.role = .host
      ∧ c1.participantCount = circle0.participantCount + 1
      ∧ joinCircle c1 ms1 "h" none 9 =
          .ok (⟨mintToken "h" circle0.id .host, .host⟩, c1, ms1) := by
  obtain ⟨out, c1, ms1, h1, h2, _, h4, _, h6⟩ :=
    C5_host_join_idempotent circle0 [] "h" none none 7 9 (by decide) rfl rfl rfl
  exact ⟨out, c1, ms1, h1, h2, h4, h6⟩

/-- C4: a non-host member record with status `left` is reactivated by
`joinCircle`: status becomes `active`, `leftAt` is cleared, `rejoinCount`
is incremented by exactly 1, `lastRejoinAt` and `joinedAt` are set to now,
`participantCount` is incremented, analytics counters (in particular
`totalSpeakTime`) and the role are unchanged, and the minted token uses the
member's existing role regardless of any role supplied in the join
request. -/
theorem C4_rejoin_reactivation (circle : Circle) (ms : Members)
    (userId : String) (em : CircleMember) (joinDto : Option JoinCircleDto)
    (now : Nat) (hAuth : userId ≠ "") (hNotHost : circle.hostUid ≠ userId)
    (hJoinable : circle.status = .scheduled ∨ circle.status = .live)
    (hMem : lookupMember ms userId = some em)
    (hLeft : em.status = some .left) :
    joinCircle circle ms userId joinDto now =
      .ok (⟨mintToken userId circle.id em.role, em.role⟩,
           { circle with participantCount := circle.participantCount + 1 },
           updateMember ms userId (fun m =>
             { m with status := some .active, leftAt := none,
                      rejoinCount := some (em.rejoinCount.getD 0 + 1),
                      lastRejoinAt := some now, joinedAt := now }))
    ∧ lookupMember (updateMember ms userId (fun m =>
         { m with status := some .active, leftAt := none,
                  rejoinCount := some (em.rejoinCount.getD 0 + 1),
                  lastRejoinAt := some now, joinedAt := now })) userId =
        some { em with status := some .active, leftAt := none,
                       rejoinCount := some (em.rejoinCount.getD 0 + 1),
                       lastRejoinAt := some now, joinedAt := now }
    ∧ ({ em with status := some .active, leftAt := none,
                 rejoinCount := some (em.rejoinCount.getD 0 + 1),
                 lastRejoinAt := some now, joinedAt := now } :
          CircleMember).totalSpeakTime = em.totalSpeakTime
    ∧ ({ em with status := some .active, leftAt := none,
                 rejoinCount := some (em.rejoinCount.getD 0 + 1),
                 lastRejoinAt := some now, joinedAt := now } :
          CircleMember).role = em.role := by
  have hcond : ¬ (circle.hostUid = userId ∧ circle.status = Status.scheduled) :=
    fun h => hNotHost h.1
  refine ⟨?_, ?_, rfl, rfl⟩
  · rcases hJoinable with hs | hs
    · simp [joinCircle, hAuth, hs, hMem, hLeft]
      exact fun h => absurd h hNotHost
    · simp [joinCircle, hAuth, hs, hcond, hMem, hLeft]
  · rw [lookupMember_updateMember_self, hMem]; rfl

/-- C4 witness: the sample listener left the circle and rejoins asking for
the speaker role; they come back as an active listener with
`rejoinCount = 1` and untouched `totalSpeakTime`. -/
theorem C4_witness :
    joinCircle { circle0 with status := .live }
        [("h", hostMember0),
         ("u", { listenerMember0 with status := some .left, leftAt := some 5,
                                      totalSpeakTime := some 777 })]
        "u" (some ⟨some .speaker⟩) 9 =
      .ok (⟨mintToken "u" "c1" .listener, .listener⟩,
           { circle0 with status := .live, participantCount := 2 },
           [("h", hostMember0),
            ("u", { listenerMember0 with status := some .active,
                                         leftAt := none,
                                         rejoinCount := some 1,
                                         lastRejoinAt := some 9,
                                         joinedAt := 9,
                                         totalSpeakTime := some 777 })]) := by
  have h := (C4_rejoin_reactivation { circle0 with status := .live }
    [("h", hostMember0),
     ("u", { listenerMember0 with status := some .left, leftAt := some 5,
                                  totalSpeakTime := some 777 })]
    "u" { listenerMember0 with status := some .left, leftAt := some 5,
                               totalSpeakTime := some 777 }
    (some ⟨some .speaker⟩) 9 (by decide) (by decide) (Or.inr rfl) rfl rfl).1
  rw [h]
  rfl

/-- C10: on a live circle whose host has no member record, `joinCircle`
called by the host does not take the host-specific path (which requires a
scheduled circle); the host is created as a regular member with the
default role `listener` (`isMuted = true`) and receives a listener token,
not a host member record and host token. -/
theorem C10_host_join_live_as_listener (circle : Circle) (ms : Members)
    (userId : String) (now : Nat) (hAuth : userId ≠ "")
    (hHost : circle.hostUid = userId) (hLive : circle.status = .live)
    (hNone : lookupMember ms userId = none) :
    ∃ c1 ms1,
      joinCircle circle ms userId none now =
        .ok (⟨mintToken userId circle.id .listener, .listener⟩, c1, ms1)
      ∧ c1.participantCount = circle.participantCount + 1
      ∧ (∃ m, lookupMember ms1 userId = some m ∧ m.role = .listener
          ∧ m.isMuted = true ∧ m.status = some .active) := by
  have hcond : ¬ (circle.hostUid = userId ∧ circle.status = Status.scheduled) := by
    rintro ⟨-, hsch⟩
    rw [hLive] at hsch
    cases hsch
  have hjoin : joinCircle circle ms userId none now =
      .ok (⟨mintToken userId circle.id .listener, .listener⟩,
           { circle with participantCount := circle.participantCount + 1 },
           setMember ms userId
             { role := .listener, isMuted := true, joinedAt := now,
               lastSpokeAt := none, status := some .active, leftAt := none,
               disconnectedAt := none, rejoinCount := some 0,
               lastRejoinAt := none, totalSpeakTime := some 0,
               isHandRaised := some false, handRaiseCount := some 0,
               roleChangeCount := some 0, lastRoleChangeAt := none,
               isMutedByHost := none, muteReason := none, kickCount := some 0,
               lastKickAt := none, kickReason := none }) := by
    simp [joinCircle, hAuth, hLive, hcond, hNone, requestedRoleOf]
  refine ⟨_, _, hjoin, rfl, ⟨_, lookupMember_setMember_self ms userId _,
    rfl, rfl, rfl⟩⟩

/-- C10 witness: the sample host joins their own live circle having no
member record and comes out as a muted listener. -/
theorem C10_witness :
    ∃ c1 ms1,
      joinCircle { circle0 with status := .live } [] "h" none 4 =
        .ok (⟨mintToken "h" circle0.id .listener, .listener⟩, c1, ms1)
      ∧ c1.participantCount = circle0.participantCount + 1
      ∧ (∃ m, lookupMember ms1 "h" = some m ∧ m.role = .listener
          ∧ m.isMuted = true ∧ m.status = some .active) :=
  C10_host_join_live_as_listener { circle0 with status := .live } [] "h" 4
    (by decide) rfl rfl rfl

/-- C3 counterexample: the host invariant holds of the store, the host
promotes listener `"u"` to role `host` (`newRole = 'host'` is admitted by
`PromoteCircleDto`), `promoteMember` succeeds, and afterwards two member
records carry role `host` — so `promoteMember` does not preserve the
invariant, refuting the claim. -/
theorem C3_counterexample :
    hostInvariant "h" [("h", hostMember0), ("u", listenerMember0)]
    ∧ ∃ out ms1,
        promoteMember circle0 [("h", hostMember0), ("u", listenerMember0)]
          "h" ⟨"u", .host⟩ 10 = .ok (out, ms1)
        ∧ hostCount ms1 = 2
        ∧ ¬ hostInvariant "h" ms1 := by
  refine ⟨⟨rfl, by decide⟩, ⟨mintToken "u" "c1" .host, .host⟩, _, rfl, rfl, ?_⟩
  intro h
  exact absurd h.1 (by decide)

/-- C3 amended: exactly one member record has role `host` and it is keyed
by the circle's `hostUid` after `createCircle`; `joinCircle` (under the
DTO-validated role) and `leaveCircle` preserve the invariant; but
`promoteMember` preserves it only when the requested role is not `host`
and the target is not the host — promoting another member to `host`
(admitted by the DTO) breaks it, as the counterexample shows. -/
theorem C3_host_invariant_amended (circle : Circle) (ms : Members)
    (hInv : hostInvariant circle.hostUid ms) :
    (∀ userId joinDto now out c1 ms1,
        (∀ d, joinDto = some d → d.valid) →
        joinCircle circle ms userId joinDto now = .ok (out, c1, ms1) →
        hostInvariant circle.hostUid ms1)
    ∧ (∀ userId handRaises now c1 ms1 hr1,
        leaveCircle circle ms handRaises userId now = .ok (c1, ms1, hr1) →
        hostInvariant circle.hostUid ms1)
    ∧ (∀ requesterId dto now out ms1,
        dto.newRole ≠ Role.host → dto.targetUserId ≠ circle.hostUid →
        promoteMember circle ms requesterId dto now = .ok (out, ms1) →
        hostInvariant circle.hostUid ms1)
    ∧ (∀ circles dto userId circleId now startOfDay c m tok,
        createCircle circles dto userId circleId now startOfDay =
          .ok (c, m, tok) →
        hostInvariant c.hostUid [(userId, m)]) := by
  refine ⟨?_, ?_, ?_, ?_⟩
  · -- joinCircle preserves the invariant
    intro userId joinDto now out c1 ms1 hvalid hj
    have hreq : requestedRoleOf joinDto = Role.listener :=
      requestedRoleOf_valid joinDto hvalid
    by_cases h1 : userId = ""
    · simp [joinCircle, h1] at hj
    · by_cases h2 : circle.status = Status.scheduled ∨ circle.status = Status.live
      · by_cases h3 : circle.hostUid = userId ∧ circle.status = Status.scheduled
        · cases hmem : lookupMember ms userId with
          | some em =>
            simp [joinCircle, h1, h2, h3, hmem] at hj
            obtain ⟨-, -, hms⟩ := hj
            subst hms
            exact hInv
          | none =>
            exfalso
            have hne := lookupMember_eq_none ms userId hmem
            obtain ⟨p, hp, hrole⟩ := exists_host_of_hostCount_ne_zero ms
              (by rw [hInv.1]; exact one_ne_zero)
            have hkey := hInv.2 p hp hrole
            rw [h3.1] at hkey
            exact hne p hp hkey
        · cases hmem : lookupMember ms userId with
          | some em =>
            by_cases h4 : em.status = some MemberStatus.left
            · simp [joinCircle, h1, h2, h3, hmem, h4] at hj
              obtain ⟨-, -, hms⟩ := hj
              subst hms
              exact hostInvariant_updateMember _ _ _ _ hInv
                (fun p hp hpk => Iff.rfl)
            · simp [joinCircle, h1, h2, h3, hmem, h4] at hj
              obtain ⟨-, -, hms⟩ := hj
              subst hms
              exact hInv
          | none =>
            simp [joinCircle, h1, h2, h3, hmem, hreq] at hj
            obtain ⟨-, -, hms⟩ := hj
            subst hms
            rw [setMember_eq_append ms userId _ hmem]
            constructor
            · rw [hostCount_append, hInv.1]
              rfl
            · intro p hp hrole
              rcases List.mem_append.mp hp with h | h
              · exact hInv.2 p h hrole
              · rcases List.mem_cons.mp h with h5 | h5
                · subst h5
                  exact Role.noConfusion hrole
                · cases h5
      · simp [joinCircle, h1, h2] at hj
  · -- leaveCircle preserves the invariant
    intro userId handRaises now c1 ms1 hr1 hl
    by_cases h1 : userId = ""
    · simp [leaveCircle, h1] at hl
    · by_cases h2 : circle.hostUid = userId
      · simp [leaveCircle, h1, h2] at hl
      · cases hmem : lookupMember ms userId with
        | none => simp [leaveCircle, h1, h2, hmem] at hl
        | some em =>
          simp [leaveCircle, h1, h2, hmem] at hl
          obtain ⟨-, hms, -⟩ := hl
          subst hms
          exact hostInvariant_updateMember _ _ _ _ hInv
            (fun p hp hpk => Iff.rfl)
  · -- promoteMember preserves the invariant away from the host role
    intro requesterId dto now out ms1 hrole htarget hp
    cases hmem : lookupMember ms dto.targetUserId with
    | none => simp [promoteMember, hmem] at hp
    | some em =>
      by_cases hreqr : circle.hostUid = requesterId
      · simp [promoteMember, hmem, hreqr] at hp
        obtain ⟨-, hms⟩ := hp
        subst hms
        refine hostInvariant_updateMember _ _ _ _ hInv ?_
        intro p hp' hpk
        constructor
        · intro hfh
          exact absurd hfh hrole
        · intro hph
          have hk := hInv.2 p hp' hph
          rw [hpk] at hk
          exact absurd hk htarget
      · simp [promoteMember, hmem, hreqr] at hp
  · -- createCircle establishes the invariant
    intro circles dto userId circleId now startOfDay c m tok hc
    by_cases h1 : userId = ""
    · simp [createCircle, h1] at hc
    · by_cases h2 : 5 ≤ dailyCreateCount circles userId startOfDay
      · simp [createCircle, h1, h2] at hc
      · simp [createCircle, h1, h2] at hc
        obtain ⟨hcEq, hmEq, -⟩ := hc
        subst hcEq
        subst hmEq
        refine ⟨rfl, ?_⟩
        intro p hp hrole
        rcases List.mem_cons.mp hp with h | h
        · subst h; rfl
        · cases h

/-- C3 witness: in the sample two-member store (host plus listener), the
listener leaving preserves the host invariant, instantiated through the
amended theorem. -/
theorem C3_witness :
    ∃ ms1, hostInvariant circle0.hostUid ms1
    ∧ ∃ c1 hr1,
        leaveCircle circle0 [("h", hostMember0), ("u", listenerMember0)] []
          "u" 5 = .ok (c1, ms1, hr1) := by
  refine ⟨_, ?_, _, _, rfl⟩
  exact (C3_host_invariant_amended circle0
    [("h", hostMember0), ("u", listenerMember0)] ⟨rfl, by decide⟩).2.1
    "u" [] 5 _ _ _ rfl

end Mixercloud
